import Mathlib

/-!
Shallow embedding of the authlib repository's permission decision engine
(`pkg/ac/client`, package `authz`) and token verification engine
(`authn/verifier.go`, `authn/jwks.go`), with theorems checking the
natural-language specification against the code.

Go maps `map[string]bool` used as string sets are modelled as
`Option (List String)`: `none` is the nil map, `some l` a map whose keys are
the elements of `l` (all values `true`).  Side effects (cache reads/writes,
remote calls) are modelled with explicit oracle environments plus an effect
log, so that "no I/O happened" is the statement that the log is empty.
-/

namespace AuthzClient

/-- Go `map[string]bool` used as a set of strings: `none` = nil map. -/
abbrev GoStrSet := Option (List String)

def GoStrSet.member (m : GoStrSet) (k : String) : Bool :=
  (m.getD []).contains k

def GoStrSet.isEmpty (m : GoStrSet) : Bool :=
  (m.getD []).isEmpty

def GoStrSet.ins (m : GoStrSet) (k : String) : GoStrSet :=
  let l := m.getD []
  if l.contains k then some l else some (l ++ [k])

/-- Modelled from the spec: the `Resource` type (kind, attribute, identifier)
is referenced by the client code in src/ but defined elsewhere in the
repository (spec §3). -/
structure Resource where
  Kind : String
  Attr : String
  ID : String
deriving DecidableEq

/-- Modelled from the spec: canonical scope string, the colon-joined form
`kind:attribute:identifier`, or `kind:identifier` when the attribute is
absent (spec §3). -/
def Resource.Scope (r : Resource) : String :=
  if r.Attr = "" then r.Kind ++ ":" ++ r.ID
  else r.Kind ++ ":" ++ r.Attr ++ ":" ++ r.ID

/-- The cached permission set (`controller` struct in the source). -/
structure Controller where
  Found : Bool
  Scopes : GoStrSet
  Wildcard : GoStrSet
deriving DecidableEq

/-- `controller.Check` from the source: scope/wildcard matching. -/
def Controller.Check (r : Controller) (resources : List Resource) : Bool :=
  if !r.Found then false
  else if resources.length = 0 then true
  else if r.Scopes.isEmpty && r.Wildcard.isEmpty then false
  else if r.Wildcard.member "*" then true
  else resources.any (fun res => r.Wildcard.member res.Kind || r.Scopes.member res.Scope)

/-- The gob wire image of a `controller` value.  Go's `encoding/gob` omits a
struct field whose value is zero for gob's purposes; for bools this means
`false` and for maps a length of zero (nil or empty).  A field is `none` when
it is omitted from the transmission. -/
structure GobWire where
  foundField : Option Bool
  scopesField : Option (List String)
  wildcardField : Option (List String)
deriving DecidableEq

/-- Gob encoding of one map field: omitted when the map has length zero. -/
def gobMapField (m : GoStrSet) : Option (List String) :=
  match m with
  | none => none
  | some l => if l.isEmpty then none else some l

/-- Gob encoding of a `controller` (the `gob.NewEncoder(..).Encode(*ctrl)` in
`cacheController`). -/
def encodeController (c : Controller) : GobWire :=
  { foundField := if c.Found then some true else none
    scopesField := gobMapField c.Scopes
    wildcardField := gobMapField c.Wildcard }

/-- Gob decoding into a fresh zero `controller` (the decode in
`getCachedController`): omitted fields keep their zero values (false / nil). -/
def decodeWire (w : GobWire) : Controller :=
  { Found := w.foundField.getD false
    Scopes := w.scopesField
    Wildcard := w.wildcardField }

/-- Go `reflect.DeepEqual` on the set component: a nil map is not deep-equal
to a non-nil empty map; two non-nil maps are deep-equal when they hold the
same keys. -/
def goSetDeepEqual (a b : GoStrSet) : Bool :=
  match a, b with
  | none, none => true
  | some l, some l' => l.all (fun s => l'.contains s) && l'.all (fun s => l.contains s)
  | _, _ => false

/-- Go `reflect.DeepEqual` on `controller` values. -/
def controllerDeepEqual (a b : Controller) : Bool :=
  a.Found == b.Found && goSetDeepEqual a.Scopes b.Scopes && goSetDeepEqual a.Wildcard b.Wildcard

/-- Error values of the authz client (`Err*` sentinels plus the cache and
codec error classes the client branches on). -/
inductive AuthzErr
  | missingStackID
  | missingAction
  | missingCaller
  | missingSubject
  | readPermission
  | cacheNotFound
  | cacheFailure
  | decodeFailure
  | cacheSetFailure
deriving DecidableEq

/-- A cached byte payload: either the gob image of a controller or bytes
that fail to gob-decode. -/
inductive CacheVal
  | wire (w : GobWire)
  | corrupt
deriving DecidableEq

/-- Observable side effects of one `Check` call. -/
inductive Effect
  | cacheGet (key : String)
  | cacheSet (key : String)
  | remoteRead (stackID : Int) (subject : String) (action : String)
deriving DecidableEq

/-- The remote `authzv1.ReadResponse`: `Found` plus the granted objects. -/
structure ReadResponse where
  Found : Bool
  Data : List String
deriving DecidableEq

/-- Oracle environment for one call: cache content, cache write outcome and
remote read outcome. -/
structure AuthzEnv where
  cacheGet : String → Except AuthzErr CacheVal
  cacheSetErr : String → Option AuthzErr
  readResp : Int → String → String → Except Unit ReadResponse

/-- Modelled from the spec: `splitScope` is called by `newController` but not
defined under src/; spec §6 gives scope strings the form
`kind:attribute:identifier` or `kind:identifier`. -/
def splitScope (s : String) : String × String × String :=
  match s.splitOn ":" with
  | [k, i] => (k, "", i)
  | [k, a, i] => (k, a, i)
  | _ => (s, "", "")

/-- `newController` from the source: translate a read response, collapsing
objects with identifier `*` into the wildcard set. -/
def newController (resp : Option ReadResponse) : Controller :=
  match resp with
  | none => { Found := false, Scopes := none, Wildcard := none }
  | some resp =>
    if !resp.Found then { Found := false, Scopes := none, Wildcard := none }
    else
      resp.Data.foldl
        (fun c o =>
          let parts := splitScope o
          if parts.2.2 = "*" then { c with Wildcard := c.Wildcard.ins parts.1 }
          else { c with Scopes := c.Scopes.ins o })
        { Found := true, Scopes := some [], Wildcard := some [] }

/-- `controllerCacheKey` from the source. -/
def controllerCacheKey (stackID : Int) (subject action : String) : String :=
  "read-" ++ toString stackID ++ "-" ++ subject ++ "-" ++ action

/-- Gob decode of a cached payload. -/
def decodeController : CacheVal → Except AuthzErr Controller
  | .wire w => .ok (decodeWire w)
  | .corrupt => .error .decodeFailure

/-- `getCachedController` from the source, with its effect log. -/
def getCachedController (env : AuthzEnv) (key : String) :
    Except AuthzErr Controller × List Effect :=
  match env.cacheGet key with
  | .error e => (.error e, [Effect.cacheGet key])
  | .ok v => (decodeController v, [Effect.cacheGet key])

/-- `cacheController` from the source (the ctrl argument is never nil on the
call path modelled here), with its effect log. -/
def cacheController (env : AuthzEnv) (key : String) :
    Option AuthzErr × List Effect :=
  (env.cacheSetErr key, [Effect.cacheSet key])

/-- `retrievePermissions` from the source: cache-first, remote on the
not-found sentinel only, then write-back. -/
def retrievePermissions (env : AuthzEnv) (stackID : Int) (subject action : String) :
    Except AuthzErr Controller × List Effect :=
  let key := controllerCacheKey stackID subject action
  match getCachedController env key with
  | (.ok ctrl, effs) => (.ok ctrl, effs)
  | (.error e, effs) =>
    if e ≠ AuthzErr.cacheNotFound then (.error e, effs)
    else
      match env.readResp stackID subject action with
      | .error _ => (.error .readPermission, effs ++ [Effect.remoteRead stackID subject action])
      | .ok resp =>
        let res := newController (some resp)
        match cacheController env key with
        | (some se, effs2) => (.error se, effs ++ [Effect.remoteRead stackID subject action] ++ effs2)
        | (none, effs2) => (.ok res, effs ++ [Effect.remoteRead stackID subject action] ++ effs2)

/-- Modelled from the spec: one caller-claims facet (the `claims` package is
not under src/).  It carries the fields the client code reads: subject,
namespace, permissions and delegated permissions. -/
structure TokenClaims where
  Subject : String
  NamespaceVal : String
  Permissions : List String
  DelegatedPermissions : List String
deriving DecidableEq

/-- Modelled from the spec: `claims.AuthInfo` with its access facet and its
identity facet; a nil or IsNil facet is `none`. -/
structure AuthInfo where
  access : Option TokenClaims
  identity : Option TokenClaims
deriving DecidableEq

/-- Modelled from the spec: `claims.NamespaceMatches` — the facet's namespace
must match the expected namespace string (spec §4.3 step 2). -/
def NamespaceMatches (c : TokenClaims) (expected : String) : Bool :=
  c.NamespaceVal = expected

/-- The `CheckRequest` struct from the source. -/
structure CheckRequest where
  Caller : AuthInfo
  StackID : Int
  Action : String
  Resource : Option Resource
  Contextual : List AuthzClient.Resource
deriving DecidableEq

/-- Client configuration relevant to `Check`: the access-token flag and the
namespace formatter. -/
structure ClientCfg where
  accessTokenAuthEnabled : Bool
  namespaceFmt : Int → String

/-- `CheckRequest.Validate` from the source. -/
def CheckRequest.Validate (r : CheckRequest) (accessTokenEnabled : Bool) : Option AuthzErr :=
  if r.StackID ≤ 0 then some .missingStackID
  else if r.Action = "" then some .missingAction
  else if accessTokenEnabled && r.Caller.access.isNone then some .missingCaller
  else
    match r.Caller.identity with
    | some idc => if idc.Subject = "" then some .missingSubject else none
    | none => none

/-- `LegacyClientImpl.validateNamespace` from the source. -/
def validateNamespace (cfg : ClientCfg) (caller : AuthInfo) (stackID : Int) : Bool :=
  let expectedNamespace := cfg.namespaceFmt stackID
  let accessTokenMatch := !cfg.accessTokenAuthEnabled ||
    (match caller.access with
     | some a => NamespaceMatches a expectedNamespace
     | none => false)
  let idTokenMatch :=
    match caller.identity with
    | some i => NamespaceMatches i expectedNamespace
    | none => true
  accessTokenMatch && idTokenMatch

/-- Tail of `LegacyClientImpl.Check` once an end-user identity is present and
the service-level checks passed: resolve the permission set and evaluate. -/
def userPermStep (env : AuthzEnv) (req : CheckRequest) (subject : String) :
    Except AuthzErr Bool × List Effect :=
  match retrievePermissions env req.StackID subject req.Action with
  | (.error e, effs) => (.error e, effs)
  | (.ok res, effs) =>
    if !res.Found then (.ok false, effs)
    else
      match req.Resource with
      | none => (.ok true, effs)
      | some r => (.ok (res.Check (req.Contextual ++ [r])), effs)

/-- `LegacyClientImpl.Check` from the source, as a function of the oracle
environment, returning the decision (or error) and the effect log. -/
def Check (cfg : ClientCfg) (env : AuthzEnv) (req : CheckRequest) :
    Except AuthzErr Bool × List Effect :=
  match req.Validate cfg.accessTokenAuthEnabled with
  | some e => (.error e, [])
  | none =>
    if !validateNamespace cfg req.Caller req.StackID then (.ok false, [])
    else
      match req.Caller.identity with
      | none =>
        if !cfg.accessTokenAuthEnabled then (.ok true, [])
        else
          match req.Caller.access with
          | none => (.error .missingCaller, [])
          | some ac => (.ok (ac.Permissions.contains req.Action), [])
      | some idc =>
        if cfg.accessTokenAuthEnabled then
          match req.Caller.access with
          | none => (.error .missingCaller, [])
          | some ac =>
            if ac.DelegatedPermissions.contains req.Action then
              userPermStep env req idc.Subject
            else (.ok false, [])
        else userPermStep env req idc.Subject

/-- A concrete configuration: access-token checking enabled, cloud-style
namespace formatting. -/
def cfgEnabled : ClientCfg :=
  { accessTokenAuthEnabled := true
    namespaceFmt := fun sid => "stacks-" ++ toString sid }

/-- A concrete environment whose cache always misses. -/
def envNotFound : AuthzEnv :=
  { cacheGet := fun _ => .error .cacheNotFound
    cacheSetErr := fun _ => none
    readResp := fun _ _ _ => .ok { Found := true, Data := [] } }

/-- A concrete environment whose cache returns an undecodable entry. -/
def envCorrupt : AuthzEnv :=
  { cacheGet := fun _ => .ok .corrupt
    cacheSetErr := fun _ => none
    readResp := fun _ _ _ => .ok { Found := true, Data := [] } }

/-- A concrete environment whose cache fails with a non-sentinel error. -/
def envCacheFailure : AuthzEnv :=
  { cacheGet := fun _ => .error .cacheFailure
    cacheSetErr := fun _ => none
    readResp := fun _ _ _ => .ok { Found := true, Data := [] } }

/-- A concrete environment whose cache holds a permission set granting the
exact scope `teams:id:1`. -/
def envCachedTeams : AuthzEnv :=
  { cacheGet := fun _ =>
      .ok (.wire { foundField := some true, scopesField := some ["teams:id:1"], wildcardField := none })
    cacheSetErr := fun _ => none
    readResp := fun _ _ _ => .error () }

/-- The permission set cached by `envCachedTeams`. -/
def ctrlCachedTeams : Controller :=
  { Found := true, Scopes := some ["teams:id:1"], Wildcard := none }

def svcClaims : TokenClaims :=
  { Subject := "svc"
    NamespaceVal := "stacks-12"
    Permissions := ["dashboards:read"]
    DelegatedPermissions := ["dashboards:read"] }

def svcClaimsWrongNs : TokenClaims :=
  { Subject := "svc"
    NamespaceVal := "stacks-13"
    Permissions := ["dashboards:read"]
    DelegatedPermissions := ["dashboards:read"] }

def userClaims : TokenClaims :=
  { Subject := "user:1"
    NamespaceVal := "stacks-12"
    Permissions := []
    DelegatedPermissions := [] }

def teamsRes : Resource := { Kind := "teams", Attr := "id", ID := "1" }

/-- A request whose end-user identity is present and whose resource carries
the cached scope. -/
def reqTeams : CheckRequest :=
  { Caller := { access := some svcClaims, identity := some userClaims }
    StackID := 12
    Action := "dashboards:read"
    Resource := some teamsRes
    Contextual := [] }

/-- A request whose caller namespace does not match the tenant namespace. -/
def reqMismatch : CheckRequest :=
  { Caller := { access := some svcClaimsWrongNs, identity := none }
    StackID := 12
    Action := "dashboards:read"
    Resource := none
    Contextual := [] }

def reqZeroStack : CheckRequest :=
  { Caller := { access := some svcClaims, identity := none }
    StackID := 0
    Action := "dashboards:read"
    Resource := none
    Contextual := [] }

def reqNoAction : CheckRequest :=
  { Caller := { access := some svcClaims, identity := none }
    StackID := 12
    Action := ""
    Resource := none
    Contextual := [] }

def reqNoCaller : CheckRequest :=
  { Caller := { access := none, identity := none }
    StackID := 12
    Action := "dashboards:read"
    Resource := none
    Contextual := [] }

def emptySubjectClaims : TokenClaims :=
  { Subject := "", NamespaceVal := "stacks-12", Permissions := [], DelegatedPermissions := [] }

def reqEmptySubject : CheckRequest :=
  { Caller := { access := some svcClaims, identity := some emptySubjectClaims }
    StackID := 12
    Action := "dashboards:read"
    Resource := none
    Contextual := [] }

end AuthzClient


namespace Authn

/-- A verification key from the remote key set (`jose.JSONWebKey`): key
identifier plus opaque key material. -/
structure JWK where
  KeyID : String
  Material : String
deriving DecidableEq

/-- One entry of the key retriever's cache: the encoded key bytes, the empty
byte slice used as the known-invalid placeholder, or bytes that fail to
decode. -/
inductive KeyCacheItem
  | negative
  | key (k : JWK)
  | corrupt
deriving DecidableEq

/-- The key retriever's cache content, as an association list. -/
abbrev KeyCacheMap := List (String × KeyCacheItem)

def cacheLookup (c : KeyCacheMap) (k : String) : Option KeyCacheItem :=
  (c.find? (fun p => p.1 = k)).map (fun p => p.2)

/-- Overwriting insertion, matching the cache's `Set`. -/
def cacheSet (c : KeyCacheMap) (k : String) (v : KeyCacheItem) : KeyCacheMap :=
  (k, v) :: c.filter (fun p => p.1 ≠ k)

/-- `getCachedItem` from the source.  Outer `none` is a miss (absent entry,
or an entry that fails to decode); `some none` is the cached empty
placeholder (a hit meaning known-invalid); `some (some k)` is a decoded key. -/
def getCachedItem (c : KeyCacheMap) (keyID : String) : Option (Option JWK) :=
  match cacheLookup c keyID with
  | none => none
  | some .negative => some none
  | some (.key k) => some (some k)
  | some .corrupt => none

/-- Errors of the key retriever. -/
inductive AuthnErr
  | invalidSigningKey
  | fetchingSigningKey
deriving DecidableEq

/-- Outcome of the HTTP GET issued by `fetchJWKS`: transport failure, or a
response with a status code and a body that decodes to a key list or not. -/
inductive HTTPOutcome
  | transportError
  | response (status : Nat) (body : Except Unit (List JWK))

/-- `fetchJWKS` from the source: transport errors, non-200 statuses and
undecodable bodies all map to the fetching-signing-key error. -/
def fetchJWKS (o : HTTPOutcome) : Except AuthnErr (List JWK) :=
  match o with
  | .transportError => .error .fetchingSigningKey
  | .response status body =>
    if status ≠ 200 then .error .fetchingSigningKey
    else
      match body with
      | .error _ => .error .fetchingSigningKey
      | .ok keys => .ok keys

/-- `DefaultKeyRetriever.Get` from the source, single-call view: cache-first,
fetch on a genuine miss, write every fetched key, re-check, negative-cache a
still-absent identifier.  Returns the result and the cache state after the
call. -/
def KeyRetrieverGet (o : HTTPOutcome) (c : KeyCacheMap) (keyID : String) :
    Except AuthnErr JWK × KeyCacheMap :=
  match getCachedItem c keyID with
  | some (some k) => (.ok k, c)
  | some none => (.error .invalidSigningKey, c)
  | none =>
    match fetchJWKS o with
    | .error e => (.error e, c)
    | .ok keys =>
      let c1 := keys.foldl (fun acc k => cacheSet acc k.KeyID (.key k)) c
      match getCachedItem c1 keyID with
      | some (some k) => (.ok k, c1)
      | some none => (.error .invalidSigningKey, c1)
      | none => (.error .invalidSigningKey, cacheSet c1 keyID .negative)

/-- One JOSE header of a parsed token: key identifier and the optional `typ`
extra header (absent, or not a string, is `none`). -/
structure TokenHeader where
  KeyID : String
  Typ : Option String
deriving DecidableEq

/-- The result of `jwt.ParseSigned`: the token's headers. -/
structure ParsedToken where
  Headers : List TokenHeader
deriving DecidableEq

/-- `validType` from the source: with an empty configured type the check
always passes; otherwise the token passes when some header either lacks a
string `typ` or carries one equal to the configured type. -/
def validType (headers : List TokenHeader) (typ : String) : Bool :=
  if typ = "" then true
  else
    headers.any (fun h =>
      match h.Typ with
      | none => true
      | some t => t = typ)

/-- Token verification errors (`Err*` sentinels of the authn package;
`claimsDecodeError` and `otherValidation` stand for errors propagated
unchanged). -/
inductive VerifyErr
  | parseToken
  | invalidTokenType
  | invalidSigningKey
  | fetchingSigningKey
  | claimsDecodeError
  | expiredToken
  | invalidAudience
  | otherValidation
deriving DecidableEq

/-- `getKeyID` from the source: first header with a non-empty key id. -/
def getKeyID (headers : List TokenHeader) : Except VerifyErr String :=
  match headers.find? (fun h => h.KeyID ≠ "") with
  | some h => .ok h.KeyID
  | none => .error .invalidSigningKey

/-- Failures of `claims.Validate` relevant to `mapErr`. -/
inductive ValidationErr
  | expired
  | invalidAudience
  | other
deriving DecidableEq

/-- `mapErr` from the source. -/
def mapErr (e : ValidationErr) : VerifyErr :=
  match e with
  | .expired => .expiredToken
  | .invalidAudience => .invalidAudience
  | .other => .otherValidation

def liftKeyErr (e : AuthnErr) : VerifyErr :=
  match e with
  | .invalidSigningKey => .invalidSigningKey
  | .fetchingSigningKey => .fetchingSigningKey

/-- Oracle environment for one `Verify` call on one token: the parse
outcome, the key retriever, the signature check plus claims decode, and the
expiry/audience validation. -/
structure VerifyEnv (T : Type) where
  parseResult : Except Unit ParsedToken
  getKey : String → Except AuthnErr JWK
  decodeClaims : JWK → Except Unit T
  validateClaims : T → Option ValidationErr

/-- Tail of `VerifierBase.Verify` after the token-type check. -/
def verifyParsed {T : Type} (env : VerifyEnv T) (p : ParsedToken) : Except VerifyErr T :=
  match getKeyID p.Headers with
  | .error e => .error e
  | .ok kid =>
    match env.getKey kid with
    | .error e => .error (liftKeyErr e)
    | .ok jwk =>
      match env.decodeClaims jwk with
      | .error _ => .error .claimsDecodeError
      | .ok cl =>
        match env.validateClaims cl with
        | some ve => .error (mapErr ve)
        | none => .ok cl

/-- `VerifierBase.Verify` from the source. -/
def Verify {T : Type} (tokenType : String) (env : VerifyEnv T) : Except VerifyErr T :=
  match env.parseResult with
  | .error _ => .error .parseToken
  | .ok p =>
    if !validType p.Headers tokenType then .error .invalidTokenType
    else verifyParsed env p

/-- A parsed multi-signature token (go-jose v3 `jwt.ParseSigned` accepts the
full JSON serialization, which carries one header per signature): one header
with a mismatching `typ`, one header with no `typ` at all. -/
def twoHeaderToken : ParsedToken :=
  { Headers := [{ KeyID := "k1", Typ := some "jwt" }, { KeyID := "k2", Typ := none }] }

/-- An environment presenting `twoHeaderToken` with a benign remainder of
the pipeline. -/
def twoHeaderEnv : VerifyEnv Unit :=
  { parseResult := .ok twoHeaderToken
    getKey := fun _ => .ok { KeyID := "k1", Material := "m" }
    decodeClaims := fun _ => .ok ()
    validateClaims := fun _ => none }

end Authn

namespace AuthzClient

theorem goStrSet_member_eq_false_of_isEmpty (m : GoStrSet) (k : String)
    (h : m.isEmpty = true) : m.member k = false := by
  cases m with
  | none => rfl
  | some l =>
    cases l with
    | nil => rfl
    | cons a as => exact Bool.noConfusion h

theorem goStrSet_isEmpty_eq_false_of_member (m : GoStrSet) (k : String)
    (h : m.member k = true) : m.isEmpty = false := by
  cases m with
  | none => exact Bool.noConfusion h
  | some l =>
    cases l with
    | nil => exact Bool.noConfusion h
    | cons a as => rfl

theorem gobMapField_eq_self (m : GoStrSet) (h : m ≠ some ([] : List String)) :
    gobMapField m = m := by
  cases m with
  | none => rfl
  | some l =>
    cases l with
    | nil => exact absurd rfl h
    | cons a as => rfl

theorem goSetDeepEqual_refl (m : GoStrSet) : goSetDeepEqual m m = true := by
  cases m with
  | none => rfl
  | some l => simp [goSetDeepEqual, List.all_eq_true]

theorem controllerDeepEqual_refl (c : Controller) : controllerDeepEqual c c = true := by
  simp [controllerDeepEqual, goSetDeepEqual_refl]

/-- C10: the permission-set cache key `read-<id>-<subject>-<action>` is not
injective: two distinct (tenant, subject, action) triples whose subject or
action contain the separator character map to the same key. -/
theorem controllerCacheKey_not_injective :
    controllerCacheKey 1 "a-b" "c" = controllerCacheKey 1 "a" "b-c" ∧
    ¬(((1 : Int), "a-b", "c") = ((1 : Int), "a", "b-c")) ∧
    "a-b".toList.contains '-' = true ∧ "b-c".toList.contains '-' = true := by
  decide

/-- C4 counterexample: a permission set whose wildcard set contains the
universal wildcard kind but whose `Found` flag is false makes `Check` return
false on a non-empty resource list, refuting the claim as stated. -/
theorem check_universal_wildcard_cex :
    GoStrSet.member (some ["*"]) "*" = true ∧
    Controller.Check { Found := false, Scopes := none, Wildcard := some ["*"] }
      [{ Kind := "teams", Attr := "id", ID := "1" }] = false := by
  decide

/-- C4 (amended): for every permission set whose `Found` flag is true and
whose wildcard set contains the universal wildcard kind, `Check` returns true
regardless of which resources are requested. -/
theorem check_true_of_universal_wildcard (S : Controller) (rs : List Resource)
    (hF : S.Found = true) (hw : S.Wildcard.member "*" = true) :
    S.Check rs = true := by
  have hne := goStrSet_isEmpty_eq_false_of_member S.Wildcard "*" hw
  simp [Controller.Check, hF, hne, hw]

theorem check_true_of_universal_wildcard_witness :
    Controller.Check { Found := true, Scopes := none, Wildcard := some ["*"] }
      [{ Kind := "dashboards", Attr := "uid", ID := "d1" }] = true :=
  check_true_of_universal_wildcard
    { Found := true, Scopes := none, Wildcard := some ["*"] }
    [{ Kind := "dashboards", Attr := "uid", ID := "d1" }]
    rfl (by decide)

/-- C6 counterexample: a permission set holding empty but non-nil maps is not
gob round-trip deep-equal — encoding omits the zero-length map fields, so
decoding yields nil maps, which `reflect.DeepEqual` distinguishes from empty
non-nil maps.  This value is reachable: `newController` builds exactly this
controller from a found response with no grants. -/
theorem gob_roundtrip_cex :
    controllerDeepEqual
      (decodeWire (encodeController { Found := true, Scopes := some [], Wildcard := some [] }))
      { Found := true, Scopes := some [], Wildcard := some [] } = false ∧
    newController (some { Found := true, Data := [] }) =
      { Found := true, Scopes := some [], Wildcard := some [] } := by
  decide

/-- C6 (amended): for every permission set in which an empty scope or
wildcard set is represented by the nil map (rather than an allocated empty
map), gob encoding followed by decoding restores the value exactly, hence
deep-equal. -/
theorem gob_roundtrip_deep_equal (c : Controller)
    (hs : c.Scopes ≠ some ([] : List String))
    (hw : c.Wildcard ≠ some ([] : List String)) :
    decodeWire (encodeController c) = c ∧
    controllerDeepEqual (decodeWire (encodeController c)) c = true := by
  have hFound : ((if c.Found then some true else none).getD false) = c.Found := by
    cases c.Found <;> rfl
  have h1 : decodeWire (encodeController c) = c := by
    unfold decodeWire encodeController
    simp [gobMapField_eq_self _ hs, gobMapField_eq_self _ hw, hFound]
  refine ⟨h1, ?_⟩
  rw [h1]
  exact controllerDeepEqual_refl c

theorem gob_roundtrip_deep_equal_witness :
    decodeWire (encodeController { Found := true, Scopes := some ["teams:id:1"], Wildcard := some ["*"] }) =
      { Found := true, Scopes := some ["teams:id:1"], Wildcard := some ["*"] } ∧
    controllerDeepEqual
      (decodeWire (encodeController { Found := true, Scopes := some ["teams:id:1"], Wildcard := some ["*"] }))
      { Found := true, Scopes := some ["teams:id:1"], Wildcard := some ["*"] } = true :=
  gob_roundtrip_deep_equal
    { Found := true, Scopes := some ["teams:id:1"], Wildcard := some ["*"] }
    (by decide) (by decide)

end AuthzClient


namespace Authn

theorem fetchJWKS_error_eq (o : HTTPOutcome) (e : AuthnErr)
    (h : fetchJWKS o = .error e) : e = AuthnErr.fetchingSigningKey := by
  cases o with
  | transportError =>
    simp [fetchJWKS] at h
    exact h.symm
  | response status body =>
    by_cases hst : status = 200
    · subst hst
      cases body with
      | error u =>
        simp [fetchJWKS] at h
        exact h.symm
      | ok keys => simp [fetchJWKS] at h
    · simp [fetchJWKS, hst] at h
      exact h.symm

/-- C7: when the requested key identifier misses the cache and the remote
key-set fetch fails (transport error, non-200 status or body decode
failure), `Get` fails with the fetching-signing-key error and leaves the
cache unchanged — in particular the identifier is not written as the
known-invalid placeholder, so the next call retries the fetch. -/
theorem keyretriever_fetch_failure (o : HTTPOutcome) (c : KeyCacheMap)
    (keyID : String) (e : AuthnErr)
    (hmiss : getCachedItem c keyID = none)
    (hfail : fetchJWKS o = .error e) :
    KeyRetrieverGet o c keyID = (.error AuthnErr.fetchingSigningKey, c) := by
  have he := fetchJWKS_error_eq o e hfail
  subst he
  simp [KeyRetrieverGet, hmiss, hfail]

theorem keyretriever_fetch_failure_witness :
    KeyRetrieverGet HTTPOutcome.transportError [] "kid" =
      (.error AuthnErr.fetchingSigningKey, []) :=
  keyretriever_fetch_failure HTTPOutcome.transportError [] "kid"
    AuthnErr.fetchingSigningKey rfl rfl

/-- C8 counterexample: a token parsed into two headers — one carrying
`typ = "jwt"`, which differs from the configured `"at+jwt"`, and one with no
`typ` — passes `validType` and verifies successfully, so a token that
carries a non-matching `typ` header does not necessarily fail with the
invalid-token-type error, refuting the claim as stated. -/
theorem verify_token_type_cex :
    (∃ h ∈ twoHeaderToken.Headers, h.Typ = some "jwt") ∧
    ¬("jwt" = "at+jwt") ∧
    validType twoHeaderToken.Headers "at+jwt" = true ∧
    Verify "at+jwt" twoHeaderEnv = .ok () :=
  ⟨⟨{ KeyID := "k1", Typ := some "jwt" }, by decide, rfl⟩, by decide, rfl, rfl⟩

/-- C8 (amended): with a non-empty configured token type: when every header
of the parsed token carries a `typ` value and none of them equals the
configured type, `Verify` fails with the invalid-token-type error; when some
header lacks a `typ` (in particular a single-header token without one), or
some header's `typ` equals the configured type, the check passes and
verification proceeds. -/
theorem verify_token_type {T : Type} (tt : String) (env : VerifyEnv T)
    (p : ParsedToken)
    (htt : tt ≠ "") (hp : env.parseResult = .ok p) :
    ((∀ h ∈ p.Headers, h.Typ ≠ none ∧ h.Typ ≠ some tt) →
      Verify tt env = .error .invalidTokenType) ∧
    ((∃ h ∈ p.Headers, h.Typ = none) → Verify tt env = verifyParsed env p) ∧
    ((∃ h ∈ p.Headers, h.Typ = some tt) → Verify tt env = verifyParsed env p) := by
  refine ⟨?_, ?_, ?_⟩
  · intro hall
    have hval : validType p.Headers tt = false := by
      unfold validType
      rw [if_neg htt, List.any_eq_false]
      intro h hmem
      cases hTyp : h.Typ with
      | none => exact absurd hTyp (hall h hmem).1
      | some t =>
        have hne : ¬(t = tt) := fun heq => (hall h hmem).2 (heq ▸ hTyp)
        simp [hTyp, hne]
    simp [Verify, hp, hval]
  · intro hex
    obtain ⟨h, hmem, hTyp⟩ := hex
    have hval : validType p.Headers tt = true := by
      unfold validType
      rw [if_neg htt, List.any_eq_true]
      exact ⟨h, hmem, by simp [hTyp]⟩
    simp [Verify, hp, hval]
  · intro hex
    obtain ⟨h, hmem, hTyp⟩ := hex
    have hval : validType p.Headers tt = true := by
      unfold validType
      rw [if_neg htt, List.any_eq_true]
      exact ⟨h, hmem, by simp [hTyp]⟩
    simp [Verify, hp, hval]

theorem verify_token_type_witness :
    Verify "at+jwt"
      ({ parseResult := .ok { Headers := [{ KeyID := "k1", Typ := some "jwt" }] }
         getKey := fun _ => .ok { KeyID := "k1", Material := "m" }
         decodeClaims := fun _ => .ok ()
         validateClaims := fun _ => none } : VerifyEnv Unit) =
      .error .invalidTokenType ∧
    Verify "at+jwt" twoHeaderEnv = verifyParsed twoHeaderEnv twoHeaderToken :=
  have h1 := verify_token_type "at+jwt"
    ({ parseResult := .ok { Headers := [{ KeyID := "k1", Typ := some "jwt" }] }
       getKey := fun _ => .ok { KeyID := "k1", Material := "m" }
       decodeClaims := fun _ => .ok ()
       validateClaims := fun _ => none } : VerifyEnv Unit)
    { Headers := [{ KeyID := "k1", Typ := some "jwt" }] }
    (by decide) rfl
  have h2 := verify_token_type "at+jwt" twoHeaderEnv twoHeaderToken (by decide) rfl
  ⟨h1.1 (by decide), h2.2.1 ⟨{ KeyID := "k2", Typ := none }, by decide, rfl⟩⟩

end Authn
namespace AuthzClient

/-- C2: a request that passes validation but whose caller claims do not
match the tenant namespace is denied with no error and no effect: no
permission lookup, no cache interaction, no remote call. -/
theorem check_namespace_mismatch (cfg : ClientCfg) (env : AuthzEnv) (req : CheckRequest)
    (hv : req.Validate cfg.accessTokenAuthEnabled = none)
    (hns : validateNamespace cfg req.Caller req.StackID = false) :
    Check cfg env req = (Except.ok false, ([] : List Effect)) := by
  simp [Check, hv, hns]

theorem check_namespace_mismatch_witness :
    Check cfgEnabled envNotFound reqMismatch = (Except.ok false, ([] : List Effect)) :=
  check_namespace_mismatch cfgEnabled envNotFound reqMismatch (by decide) (by decide)

end AuthzClient

namespace AuthzClient

/-- C3: each request-shape violation fails fast in `Check` with the
corresponding missing-field error and an empty effect log: non-positive
stack id, then empty action, then absent access claims while access-token
checking is enabled, then a present identity facet with an empty subject. -/
theorem check_validation_fails_fast (cfg : ClientCfg) (env : AuthzEnv) (req : CheckRequest) :
    (req.StackID ≤ 0 →
      Check cfg env req = (Except.error .missingStackID, ([] : List Effect))) ∧
    (0 < req.StackID → req.Action = "" →
      Check cfg env req = (Except.error .missingAction, ([] : List Effect))) ∧
    (0 < req.StackID → req.Action ≠ "" → cfg.accessTokenAuthEnabled = true →
      req.Caller.access = none →
      Check cfg env req = (Except.error .missingCaller, ([] : List Effect))) ∧
    (0 < req.StackID → req.Action ≠ "" →
      ¬(cfg.accessTokenAuthEnabled = true ∧ req.Caller.access = none) →
      ∀ idc, req.Caller.identity = some idc → idc.Subject = "" →
        Check cfg env req = (Except.error .missingSubject, ([] : List Effect))) := by
  refine ⟨?_, ?_, ?_, ?_⟩
  · intro h
    have hval : req.Validate cfg.accessTokenAuthEnabled = some .missingStackID := by
      simp [CheckRequest.Validate, h]
    simp [Check, hval]
  · intro h0 hA
    have hnot : ¬(req.StackID ≤ 0) := by omega
    have hval : req.Validate cfg.accessTokenAuthEnabled = some .missingAction := by
      simp [CheckRequest.Validate, hnot, hA]
    simp [Check, hval]
  · intro h0 hA hE hacc
    have hnot : ¬(req.StackID ≤ 0) := by omega
    have hval : req.Validate cfg.accessTokenAuthEnabled = some .missingCaller := by
      simp [CheckRequest.Validate, hnot, hA, hE, hacc]
    simp [Check, hval]
  · intro h0 hA hnc idc hid hsub
    have hnot : ¬(req.StackID ≤ 0) := by omega
    have hcond : (cfg.accessTokenAuthEnabled && req.Caller.access.isNone) = false := by
      cases he : cfg.accessTokenAuthEnabled with
      | false => rfl
      | true =>
        cases hac : req.Caller.access with
        | none => exact absurd ⟨he, hac⟩ hnc
        | some a => simp [hac]
    have hval : req.Validate cfg.accessTokenAuthEnabled = some .missingSubject := by
      simp [CheckRequest.Validate, hnot, hA, hcond, hid, hsub]
    simp [Check, hval]

theorem check_validation_fails_fast_witness :
    Check cfgEnabled envNotFound reqZeroStack = (Except.error .missingStackID, ([] : List Effect)) ∧
    Check cfgEnabled envNotFound reqNoAction = (Except.error .missingAction, ([] : List Effect)) ∧
    Check cfgEnabled envNotFound reqNoCaller = (Except.error .missingCaller, ([] : List Effect)) ∧
    Check cfgEnabled envNotFound reqEmptySubject = (Except.error .missingSubject, ([] : List Effect)) :=
  ⟨(check_validation_fails_fast cfgEnabled envNotFound reqZeroStack).1 (by decide),
   (check_validation_fails_fast cfgEnabled envNotFound reqNoAction).2.1 (by decide) rfl,
   (check_validation_fails_fast cfgEnabled envNotFound reqNoCaller).2.2.1
     (by decide) (by decide) rfl rfl,
   (check_validation_fails_fast cfgEnabled envNotFound reqEmptySubject).2.2.2
     (by decide) (by decide) (by decide) emptySubjectClaims rfl rfl⟩

/-- C5: in `retrievePermissions`, a cache hit whose bytes fail to decode
surfaces the decode error (it is not treated as a miss), and any cache-layer
error other than the not-found sentinel is returned as-is; in both cases the
effect log holds only the cache read — no remote call is attempted. -/
theorem retrieve_cache_error_surfaced (env : AuthzEnv) (stackID : Int) (subject action : String) :
    (∀ v e, env.cacheGet (controllerCacheKey stackID subject action) = .ok v →
      decodeController v = .error e →
      retrievePermissions env stackID subject action =
        (.error e, [Effect.cacheGet (controllerCacheKey stackID subject action)])) ∧
    (∀ e, env.cacheGet (controllerCacheKey stackID subject action) = .error e →
      e ≠ AuthzErr.cacheNotFound →
      retrievePermissions env stackID subject action =
        (.error e, [Effect.cacheGet (controllerCacheKey stackID subject action)])) := by
  constructor
  · intro v e hget hdec
    have he : e = AuthzErr.decodeFailure := by
      cases v with
      | wire w => simp [decodeController] at hdec
      | corrupt =>
        injection hdec with h
        exact h.symm
    subst he
    simp [retrievePermissions, getCachedController, hget, hdec]
  · intro e hget hne
    simp [retrievePermissions, getCachedController, hget, hne]

theorem retrieve_cache_error_surfaced_witness :
    retrievePermissions envCorrupt 12 "user:1" "dashboards:read" =
      (.error .decodeFailure, [Effect.cacheGet (controllerCacheKey 12 "user:1" "dashboards:read")]) ∧
    retrievePermissions envCacheFailure 12 "user:1" "dashboards:read" =
      (.error .cacheFailure, [Effect.cacheGet (controllerCacheKey 12 "user:1" "dashboards:read")]) :=
  ⟨(retrieve_cache_error_surfaced envCorrupt 12 "user:1" "dashboards:read").1
     CacheVal.corrupt AuthzErr.decodeFailure rfl rfl,
   (retrieve_cache_error_surfaced envCacheFailure 12 "user:1" "dashboards:read").2
     AuthzErr.cacheFailure rfl (by decide)⟩

end AuthzClient

namespace AuthzClient

theorem controller_check_iff (S : Controller) (rs : List Resource)
    (hF : S.Found = true) (hne : rs ≠ []) :
    S.Check rs = true ↔
      S.Wildcard.member "*" = true ∨
        ∃ x ∈ rs, S.Wildcard.member x.Kind = true ∨ S.Scopes.member x.Scope = true := by
  have hlen : ¬(rs.length = 0) := by simpa using hne
  by_cases hE : (S.Scopes.isEmpty && S.Wildcard.isEmpty) = true
  · rw [Bool.and_eq_true] at hE
    have hs := fun k => goStrSet_member_eq_false_of_isEmpty S.Scopes k hE.1
    have hw := fun k => goStrSet_member_eq_false_of_isEmpty S.Wildcard k hE.2
    simp [Controller.Check, hF, hlen, hE.1, hE.2, hs, hw]
  · by_cases hW : S.Wildcard.member "*" = true
    · simp [Controller.Check, hF, hlen, hE, hW]
    · simp [Controller.Check, hF, hlen, hE, hW, List.any_eq_true]

end AuthzClient

namespace AuthzClient

/-- C1: for a request that passes validation and the namespace check, with
an end-user identity present, the service-level delegation check passed, and
the permission set resolved to `S`: `Check` denies when `S.Found` is false;
allows when the request carries no primary resource; and otherwise returns
true exactly when the universal wildcard kind is in the wildcard set or some
resource among the primary and contextual resources has its kind in the
wildcard set or its canonical scope in the exact-scope set. -/
theorem check_user_evaluation (cfg : ClientCfg) (env : AuthzEnv) (req : CheckRequest)
    (idc : TokenClaims) (S : Controller) (effs : List Effect)
    (hv : req.Validate cfg.accessTokenAuthEnabled = none)
    (hns : validateNamespace cfg req.Caller req.StackID = true)
    (hid : req.Caller.identity = some idc)
    (hsvc : cfg.accessTokenAuthEnabled = true →
      ∃ ac, req.Caller.access = some ac ∧ ac.DelegatedPermissions.contains req.Action = true)
    (hres : retrievePermissions env req.StackID idc.Subject req.Action = (.ok S, effs)) :
    (S.Found = false → Check cfg env req = (Except.ok false, effs)) ∧
    (S.Found = true → req.Resource = none → Check cfg env req = (Except.ok true, effs)) ∧
    (∀ r, S.Found = true → req.Resource = some r →
      (Check cfg env req = (Except.ok true, effs) ↔
        S.Wildcard.member "*" = true ∨
          ∃ x ∈ req.Contextual ++ [r],
            S.Wildcard.member x.Kind = true ∨ S.Scopes.member x.Scope = true)) := by
  have hstep : Check cfg env req = userPermStep env req idc.Subject := by
    cases he : cfg.accessTokenAuthEnabled with
    | false =>
      rw [he] at hv
      simp [Check, hv, hns, hid, he]
    | true =>
      obtain ⟨ac, hac, hdel⟩ := hsvc he
      rw [he] at hv
      have hmem : req.Action ∈ ac.DelegatedPermissions := by simpa using hdel
      simp [Check, hv, hns, hid, he, hac, hmem]
  refine ⟨?_, ?_, ?_⟩
  · intro hF
    rw [hstep]
    simp [userPermStep, hres, hF]
  · intro hF hR
    rw [hstep]
    simp [userPermStep, hres, hF, hR]
  · intro r hF hR
    have hCk : Check cfg env req = (Except.ok (S.Check (req.Contextual ++ [r])), effs) := by
      rw [hstep]
      simp [userPermStep, hres, hF, hR]
    have hiff := controller_check_iff S (req.Contextual ++ [r]) hF (by simp)
    rw [hCk]
    constructor
    · intro hEq
      apply hiff.mp
      simpa using congrArg Prod.fst hEq
    · intro hOr
      rw [hiff.mpr hOr]

theorem check_user_evaluation_witness :
    Check cfgEnabled envCachedTeams reqTeams =
      (Except.ok true, [Effect.cacheGet (controllerCacheKey 12 "user:1" "dashboards:read")]) :=
  have h := check_user_evaluation cfgEnabled envCachedTeams reqTeams userClaims
    ctrlCachedTeams [Effect.cacheGet (controllerCacheKey 12 "user:1" "dashboards:read")]
    (by decide) (by decide) rfl
    (fun _ => ⟨svcClaims, rfl, by decide⟩) rfl
  (h.2.2 teamsRes rfl rfl).mpr
    (Or.inr ⟨teamsRes, by decide, Or.inr (by decide)⟩)

end AuthzClient
